import Mathlib

/-!
Verification development for the SakukuWebApp client-side finance tracker.

The definitions below are a shallow embedding of the three components with a
nontrivial contract:
  * the persistence service (`services/storage.ts`),
  * the exchange-rate service (`services/currency.ts`),
  * the display-amount conversion in `App.tsx` (`convertAmount`), and
  * the offline cache worker (`public/sw.js`).

JavaScript runtime values that flow through `JSON.parse`/`JSON.stringify` are
modelled by the inductive `Json` below (JSON has no `undefined`, no `NaN` and,
after parsing, no duplicate object keys).  A JavaScript property access `t.f`
that may yield `undefined` is modelled as `Option Json`; JavaScript truthiness
is the function `truthy`.  `localStorage` / `sessionStorage` cells are modelled
as `Option StoredVal` where `StoredVal.malformed` stands for a stored string
that `JSON.parse` rejects.  Sources of nondeterminism are explicit parameters:
`uuid : ℕ → String` models successive results of `crypto.randomUUID()`,
`nowISO : String` models `new Date().toISOString()`, and integer `now : ℤ`
models `Date.now()`.  The partial coercions `strNum` / `refNum` parameterise
the `Number(x)` conversion on strings and on reference values (`none` = NaN).
-/

/-- A JSON value as produced by `JSON.parse`. -/
inductive Json where
  | null
  | bool (b : Bool)
  | num (q : ℚ)
  | str (s : String)
  | arr (elems : List Json)
  | obj (members : List (String × Json))
deriving Repr

/-- Test for the JSON `null` value. -/
def Json.isNull : Json → Bool
  | Json.null => true
  | _ => false

/-- JavaScript strict equality `v === s` against a string literal: value
equality when `v` is a string, false for every other runtime value (an object
is never `===` to a primitive). -/
def Json.strEq : Json → String → Bool
  | Json.str t, s => t = s
  | _, _ => false

/-- JavaScript truthiness of a defined value: `null`, `false`, `0` and the
empty string are falsy; every object and array is truthy. -/
def truthy : Json → Bool
  | Json.null => false
  | Json.bool b => b
  | Json.num q => q ≠ 0
  | Json.str s => s ≠ ""
  | Json.arr _ => true
  | Json.obj _ => true

/-- Property access `v.k` on a non-null value: a defined member of an object,
`undefined` (`none`) otherwise.  Access on `Json.null` throws in JavaScript and
is guarded separately at each use site. -/
def jsGet (v : Json) (k : String) : Option Json :=
  match v with
  | Json.obj members => (members.find? (fun p => p.1 = k)).map Prod.snd
  | _ => none

/-- The JavaScript idiom `x || d` for a possibly-undefined `x`: the value when
truthy, the default otherwise. -/
def orDefault (x : Option Json) (d : Json) : Json :=
  match x with
  | some v => if truthy v then v else d
  | none => d

/-- The `Number(x)` coercion, `none` standing for NaN.  String and reference
coercions are parameters: no claim depends on their lexical details. -/
def jsNumber (strNum : String → Option ℚ) (refNum : Json → Option ℚ) : Json → Option ℚ
  | Json.null => some 0
  | Json.bool b => some (if b then 1 else 0)
  | Json.num q => some q
  | Json.str s => strNum s
  | Json.arr l => refNum (Json.arr l)
  | Json.obj l => refNum (Json.obj l)

/-- The idiom `Number(x) || 0` applied to a possibly-undefined property value:
NaN (and `Number(undefined)`) and `0` both collapse to `0`. -/
def jsNumberOr0 (strNum : String → Option ℚ) (refNum : Json → Option ℚ)
    (x : Option Json) : ℚ :=
  match x with
  | none => 0
  | some v =>
    match jsNumber strNum refNum v with
    | none => 0
    | some q => q

/-- A raw string sitting in a storage cell: either one that `JSON.parse`
rejects, or the parse result. -/
inductive StoredVal where
  | malformed
  | val (j : Json)
deriving Repr

/-- The `TransactionType` enum of `types.ts`. -/
inductive TransactionType where
  | INCOME
  | EXPENSE
deriving Repr, DecidableEq

/-- String value of a `TransactionType` enum member (`types.ts`). -/
def TransactionType.tag : TransactionType → String
  | TransactionType.INCOME => "income"
  | TransactionType.EXPENSE => "expense"

/-- A sanitized transaction as built by `getTransactions` in
`services/storage.ts`.  The sanitizer keeps any truthy raw value unchanged, so
at runtime the non-amount fields can hold arbitrary (truthy) JSON values; they
are therefore modelled as `Json`.  `amount` is always a number after
`Number(t.amount) || 0`. -/
structure Transaction where
  id : Json
  amount : ℚ
  description : Json
  category : Json
  date : Json
  type : TransactionType
  currency : Json
deriving Repr

/-- Sanitization of one raw array entry (`services/storage.ts`,
`getTransactions`): each missing or falsy field is replaced by its default.
The entry `Json.null` throws on property access; that case is guarded in
`getTransactions`, never reaching this function. -/
def sanitizeEntry (strNum : String → Option ℚ) (refNum : Json → Option ℚ)
    (freshId : String) (nowISO : String) (t : Json) : Transaction :=
  { id := orDefault (jsGet t "id") (Json.str freshId)
    amount := jsNumberOr0 strNum refNum (jsGet t "amount")
    description := orDefault (jsGet t "description") (Json.str "Tanpa Keterangan")
    category := orDefault (jsGet t "category") (Json.str "Lainnya")
    date := orDefault (jsGet t "date") (Json.str nowISO)
    type := if (jsGet t "type").any (fun v => v.strEq "income")
            then TransactionType.INCOME else TransactionType.EXPENSE
    currency := orDefault (jsGet t "currency") (Json.str "IDR") }

/-- Sanitization of the raw list, entry `i` drawing `uuid i` as its fresh
identifier when its own id is falsy. -/
def sanitizeList (strNum : String → Option ℚ) (refNum : Json → Option ℚ)
    (uuid : ℕ → String) (nowISO : String) : ℕ → List Json → List Transaction
  | _, [] => []
  | i, t :: rest =>
    sanitizeEntry strNum refNum (uuid i) nowISO t ::
      sanitizeList strNum refNum uuid nowISO (i + 1) rest

/-- `getTransactions` of `services/storage.ts`.  Absent key, malformed JSON and
non-array parses all yield `[]`.  A `null` array entry makes the `.map`
callback throw on `t.id`; the surrounding `try`/`catch` then yields `[]`. -/
def getTransactions (strNum : String → Option ℚ) (refNum : Json → Option ℚ)
    (uuid : ℕ → String) (nowISO : String) (cell : Option StoredVal) :
    List Transaction :=
  match cell with
  | none => []
  | some StoredVal.malformed => []
  | some (StoredVal.val (Json.arr l)) =>
    if l.any Json.isNull then []
    else sanitizeList strNum refNum uuid nowISO 0 l
  | some (StoredVal.val _) => []

/-- `JSON.stringify` image of a `Transaction`, with the object-literal key
order of `getTransactions`. -/
def encodeTransaction (t : Transaction) : Json :=
  Json.obj [("id", t.id), ("amount", Json.num t.amount),
            ("description", t.description), ("category", t.category),
            ("date", t.date), ("type", Json.str t.type.tag),
            ("currency", t.currency)]

/-- The stored representation of a transaction list. -/
def encodeList (ts : List Transaction) : StoredVal :=
  StoredVal.val (Json.arr (ts.map encodeTransaction))

/-- `saveTransaction` of `services/storage.ts`: prepend to the loaded list,
persist, return the updated list.  Result: (returned list, new cell). -/
def saveTransaction (strNum : String → Option ℚ) (refNum : Json → Option ℚ)
    (uuid : ℕ → String) (nowISO : String) (tx : Transaction)
    (cell : Option StoredVal) : List Transaction × Option StoredVal :=
  let current := getTransactions strNum refNum uuid nowISO cell
  let updated := tx :: current
  (updated, some (encodeList updated))

/-- `deleteTransaction` of `services/storage.ts`: load, keep the entries whose
`id` differs from the argument (strict `!==` against the string `id`),
persist, return. -/
def deleteTransaction (strNum : String → Option ℚ) (refNum : Json → Option ℚ)
    (uuid : ℕ → String) (nowISO : String) (id : String)
    (cell : Option StoredVal) : List Transaction × Option StoredVal :=
  let current := getTransactions strNum refNum uuid nowISO cell
  let updated := current.filter (fun t => !(t.id.strEq id))
  (updated, some (encodeList updated))

/-- `overrideTransactions` of `services/storage.ts`. -/
def overrideTransactions (ts : List Transaction) : Option StoredVal :=
  some (encodeList ts)

/-- `clearAllTransactions` of `services/storage.ts`: persists an explicit
empty array. -/
def clearAllTransactions : Option StoredVal :=
  some (StoredVal.val (Json.arr []))

/-- The settings object as it exists at runtime after the shallow merge in
`getSettings`: each field can hold an arbitrary JSON value taken from the
stored object. -/
structure AppSettings where
  currency : Json
  language : Json
  theme : Json
  username : Json
  avatar : Json
deriving Repr

/-- `DEFAULT_SETTINGS` of `services/storage.ts`. -/
def DEFAULT_SETTINGS : AppSettings :=
  { currency := Json.str "IDR", language := Json.str "id",
    theme := Json.str "dark", username := Json.str "User",
    avatar := Json.null }

/-- Field selection of the JavaScript spread merge `\x7b...d, ...j\x7d`: a key
present in `j` wins (even with a falsy or null value), an absent key keeps the
default. -/
def mergeGet (j : Json) (k : String) (d : Json) : Json :=
  match jsGet j k with
  | some v => v
  | none => d

/-- `getSettings` of `services/storage.ts`: absent key or malformed JSON yield
the defaults; otherwise the parsed object is shallow-merged over
`DEFAULT_SETTINGS`. -/
def getSettings (cell : Option StoredVal) : AppSettings :=
  match cell with
  | none => DEFAULT_SETTINGS
  | some StoredVal.malformed => DEFAULT_SETTINGS
  | some (StoredVal.val j) =>
    { currency := mergeGet j "currency" DEFAULT_SETTINGS.currency
      language := mergeGet j "language" DEFAULT_SETTINGS.language
      theme := mergeGet j "theme" DEFAULT_SETTINGS.theme
      username := mergeGet j "username" DEFAULT_SETTINGS.username
      avatar := mergeGet j "avatar" DEFAULT_SETTINGS.avatar }

/-- `saveSettings` of `services/storage.ts`: stores `JSON.stringify(settings)`.
The argument is the runtime settings object (any JSON object; the claims
quantify over objects holding any subset of the settings fields);
stringify-then-parse is the identity on `Json`. -/
def saveSettings (s : Json) : Option StoredVal :=
  some (StoredVal.val s)

/-- The `CurrencyCode` union of `types.ts`. -/
inductive CurrencyCode where
  | IDR
  | USD
  | EUR
deriving Repr, DecidableEq

/-- String value of a `CurrencyCode`. -/
def CurrencyCode.code : CurrencyCode → String
  | CurrencyCode.IDR => "IDR"
  | CurrencyCode.USD => "USD"
  | CurrencyCode.EUR => "EUR"

/-- A rate table: a JSON object of currency code to number, kept as an ordered
association list as JavaScript objects preserve insertion order. -/
def RateTable : Type := List (String × ℚ)

/-- Lookup `rates[c]`, `none` standing for `undefined`. -/
def rateOf (r : RateTable) (c : String) : Option ℚ :=
  (List.find? (fun p => p.1 = c) r).map Prod.snd

/-- `FALLBACK_RATES` of `services/currency.ts`, in source order. -/
def FALLBACK_RATES : RateTable :=
  [("USD", 1), ("EUR", 1.07), ("JPY", 0.0063), ("GBP", 1.27), ("AUD", 0.66),
   ("CAD", 0.73), ("CHF", 1.11), ("CNY", 0.14), ("IDR", 0.000062)]

/-- One `sessionStorage` entry `exchange_rates_<BASE>`: the cached rate table
and its `Date.now()` fetch timestamp. -/
structure CacheEntry where
  rates : RateTable
  timestamp : ℤ

/-- The session-scoped cache, keyed by base currency (the key strings
`exchange_rates_<BASE>` are in bijection with `CurrencyCode`). -/
def SessionCache : Type := CurrencyCode → Option CacheEntry

/-- Body of `getLatestRates` after the cache check (`services/currency.ts`):
the network attempt.  `fetchResult` is `some rates` when the fetch succeeds
with parsed body `\x7b rates \x7d`, and `none` on any network, status or parse
failure.  On success the code deletes the self-referential base key, appends
`base: 1` (object spread with a fresh computed key appends at the end), caches
the result with timestamp `now`, and returns it.  On failure it rescales
`FALLBACK_RATES` by the hardcoded rate of the base (`|| 1` guards a falsy
entry) and leaves the cache untouched.  The third component records that a
network call was issued. -/
def getLatestRatesFetch (base : CurrencyCode) (now : ℤ)
    (fetchResult : Option RateTable) (cache : SessionCache) :
    RateTable × SessionCache × Bool :=
  match fetchResult with
  | some rates =>
    let ratesWithBase : RateTable :=
      List.filter (fun p => p.1 ≠ base.code) rates ++ [(base.code, 1)]
    (ratesWithBase,
     fun b => if b = base then some ⟨ratesWithBase, now⟩ else cache b,
     true)
  | none =>
    let baseRate : ℚ :=
      match rateOf FALLBACK_RATES base.code with
      | some q => if q = 0 then 1 else q
      | none => 1
    (List.map (fun p => (p.1, p.2 / baseRate)) FALLBACK_RATES, cache, true)

/-- `getLatestRates` of `services/currency.ts`: serve the cached table when its
entry is less than one hour old by wall clock, otherwise attempt the network.
Result: (returned table, session cache afterwards, whether a network call was
issued). -/
def getLatestRates (base : CurrencyCode) (now : ℤ)
    (fetchResult : Option RateTable) (cache : SessionCache) :
    RateTable × SessionCache × Bool :=
  match cache base with
  | some entry =>
    if now - entry.timestamp < 60 * 60 * 1000 then (entry.rates, cache, false)
    else getLatestRatesFetch base now fetchResult cache
  | none => getLatestRatesFetch base now fetchResult cache

/-- `convertAmount` of `App.tsx`.  `exchangeRates` is the component state
(`none` before the first fetch resolves), `isLoadingRates` the loading flag.
Identity when the currencies coincide; `0` when conversion is needed but rates
are absent or loading; the ratio formula when both looked-up rates are truthy
(present and nonzero); the original amount otherwise. -/
def convertAmount (exchangeRates : Option RateTable) (isLoadingRates : Bool)
    (amount : ℚ) (src tgt : CurrencyCode) : ℚ :=
  if src = tgt then amount
  else
    match exchangeRates, isLoadingRates with
    | some rates, false =>
      match rateOf rates src.code, rateOf rates tgt.code with
      | some fromRate, some toRate =>
        if fromRate ≠ 0 ∧ toRate ≠ 0 then amount / fromRate * toRate
        else amount
      | _, _ => amount
    | _, _ => 0

/-- `STATIC_ASSETS` of `public/sw.js`. -/
def STATIC_ASSETS : List String :=
  ["/", "/index.html", "/manifest.json", "/icon-192.png", "/icon-512.png"]

/-- The two cache partitions of `public/sw.js` (`sakuku-static-v1.2.0` and
`sakuku-dynamic-v1.2.0`): each maps a request URL to a stored response body. -/
structure SWCaches where
  staticCache : List (String × String)
  dynamicCache : List (String × String)
deriving Repr

/-- `cache.match(request)` on one partition. -/
def cacheMatch (c : List (String × String)) (req : String) : Option String :=
  (List.find? (fun p => p.1 = req) c).map Prod.snd

/-- State of the caches right after the `install` handler ran
`caches.open(STATIC_CACHE).then(cache => cache.addAll(STATIC_ASSETS))`:
the static partition holds the shell assets, the dynamic partition is empty.
`assetContent` gives the network body of each asset at install time. -/
def installCaches (assetContent : String → String) : SWCaches :=
  { staticCache := STATIC_ASSETS.map (fun a => (a, assetContent a))
    dynamicCache := [] }

/-- The navigation branch of the `fetch` handler of `public/sw.js` when the
network is unreachable (the `fetch(request)` promise rejects): the handler
opens `DYNAMIC_CACHE` and answers with the match for the request on that
partition alone, or else the match for the index document on that same
partition — the static partition is never consulted here. -/
def navigateOffline (c : SWCaches) (req : String) : Option String :=
  match cacheMatch c.dynamicCache req with
  | some r => some r
  | none => cacheMatch c.dynamicCache "/index.html"

/-- The navigation branch of the `fetch` handler when the network responds:
the response is stored in `DYNAMIC_CACHE` under the request and returned. -/
def navigateOnline (c : SWCaches) (req : String) (body : String) :
    String × SWCaches :=
  (body, { c with dynamicCache := (req, body) :: c.dynamicCache })

/-! ## Shared lemmas about the persistence layer -/

/-- A transaction whose stored fields are all truthy.  Every output of the
sanitizer is of this shape (given non-empty generated identifiers and a
non-empty clock string), and exactly these transactions survive a
stringify/parse/sanitize round trip unchanged. -/
def WellFormed (t : Transaction) : Prop :=
  truthy t.id = true ∧ truthy t.description = true ∧ truthy t.category = true ∧
    truthy t.date = true ∧ truthy t.currency = true

theorem truthy_orDefault (x : Option Json) (d : Json) (hd : truthy d = true) :
    truthy (orDefault x d) = true := by
  cases x with
  | none => simpa [orDefault] using hd
  | some v =>
    by_cases hv : truthy v = true
    · simp [orDefault, hv]
    · simp [orDefault, Bool.not_eq_true] at hv ⊢
      simp [hv, hd]

theorem sanitizeEntry_wellFormed (strNum : String → Option ℚ)
    (refNum : Json → Option ℚ) (freshId nowISO : String) (t : Json)
    (hf : freshId ≠ "") (hn : nowISO ≠ "") :
    WellFormed (sanitizeEntry strNum refNum freshId nowISO t) := by
  refine ⟨?_, ?_, ?_, ?_, ?_⟩ <;>
    simp [sanitizeEntry] <;>
    apply truthy_orDefault <;>
    simp [truthy, hf, hn]

theorem sanitizeList_wellFormed (strNum : String → Option ℚ)
    (refNum : Json → Option ℚ) (uuid : ℕ → String) (nowISO : String)
    (hu : ∀ i, uuid i ≠ "") (hn : nowISO ≠ "") :
    ∀ (i : ℕ) (l : List Json) (t : Transaction),
      t ∈ sanitizeList strNum refNum uuid nowISO i l → WellFormed t := by
  intro i l
  induction l generalizing i with
  | nil => intro t ht; simp [sanitizeList] at ht
  | cons e rest ih =>
    intro t ht
    simp only [sanitizeList, List.mem_cons] at ht
    rcases ht with h | h
    · exact h ▸ sanitizeEntry_wellFormed strNum refNum (uuid i) nowISO e (hu i) hn
    · exact ih (i + 1) t h

theorem getTransactions_wellFormed (strNum : String → Option ℚ)
    (refNum : Json → Option ℚ) (uuid : ℕ → String) (nowISO : String)
    (cell : Option StoredVal) (hu : ∀ i, uuid i ≠ "") (hn : nowISO ≠ "") :
    ∀ t ∈ getTransactions strNum refNum uuid nowISO cell, WellFormed t := by
  intro t ht
  match cell with
  | none => simp [getTransactions] at ht
  | some StoredVal.malformed => simp [getTransactions] at ht
  | some (StoredVal.val Json.null) => simp [getTransactions] at ht
  | some (StoredVal.val (Json.bool _)) => simp [getTransactions] at ht
  | some (StoredVal.val (Json.num _)) => simp [getTransactions] at ht
  | some (StoredVal.val (Json.str _)) => simp [getTransactions] at ht
  | some (StoredVal.val (Json.obj _)) => simp [getTransactions] at ht
  | some (StoredVal.val (Json.arr l)) =>
    simp only [getTransactions] at ht
    by_cases hnull : l.any Json.isNull = true
    · simp [hnull] at ht
    · simp only [Bool.not_eq_true] at hnull
      simp only [hnull, Bool.false_eq_true, if_false] at ht
      exact sanitizeList_wellFormed strNum refNum uuid nowISO hu hn 0 l t ht

theorem sanitizeEntry_encode (strNum : String → Option ℚ)
    (refNum : Json → Option ℚ) (freshId nowISO : String) (t : Transaction)
    (h : WellFormed t) :
    sanitizeEntry strNum refNum freshId nowISO (encodeTransaction t) = t := by
  obtain ⟨h1, h2, h3, h4, h5⟩ := h
  obtain ⟨id, amount, description, category, date, ty, currency⟩ := t
  simp only [WellFormed] at h1 h2 h3 h4 h5
  simp only [sanitizeEntry, encodeTransaction, jsGet, List.find?, orDefault,
    jsNumberOr0, jsNumber]
  cases ty <;>
    simp_all [TransactionType.tag, Json.strEq, truthy]

theorem encode_not_isNull (t : Transaction) :
    Json.isNull (encodeTransaction t) = false := rfl

theorem map_encode_any_isNull (ts : List Transaction) :
    (ts.map encodeTransaction).any Json.isNull = false := by
  induction ts with
  | nil => rfl
  | cons t rest ih => simp [encode_not_isNull, ih]

theorem sanitizeList_encode (strNum : String → Option ℚ)
    (refNum : Json → Option ℚ) (uuid : ℕ → String) (nowISO : String)
    (ts : List Transaction) (h : ∀ t ∈ ts, WellFormed t) :
    ∀ i, sanitizeList strNum refNum uuid nowISO i (ts.map encodeTransaction) = ts := by
  induction ts with
  | nil => intro i; rfl
  | cons t rest ih =>
    intro i
    simp only [List.map, sanitizeList]
    rw [sanitizeEntry_encode strNum refNum (uuid i) nowISO t (h t (by simp)),
      ih (fun x hx => h x (by simp [hx])) (i + 1)]

/-- Reloading a persisted list of well-formed transactions reproduces it
exactly, whatever fresh identifiers and clock the reloading call would draw. -/
theorem getTransactions_encodeList (strNum : String → Option ℚ)
    (refNum : Json → Option ℚ) (uuid : ℕ → String) (nowISO : String)
    (ts : List Transaction) (h : ∀ t ∈ ts, WellFormed t) :
    getTransactions strNum refNum uuid nowISO (some (encodeList ts)) = ts := by
  simp only [getTransactions, encodeList, map_encode_any_isNull,
    Bool.false_eq_true, if_false]
  exact sanitizeList_encode strNum refNum uuid nowISO ts h 0

/-! ## Shared lemmas about the exchange-rate service -/

/-- The guard under which `getLatestRates` issues a network call: there is no
session-cache entry for the base, or the entry is at least one hour old. -/
def fetchAttempted (base : CurrencyCode) (now : ℤ) (cache : SessionCache) : Prop :=
  ∀ e, cache base = some e → now - e.timestamp ≥ 60 * 60 * 1000

theorem getLatestRates_attempted (base : CurrencyCode) (now : ℤ)
    (fr : Option RateTable) (cache : SessionCache)
    (h : fetchAttempted base now cache) :
    getLatestRates base now fr cache = getLatestRatesFetch base now fr cache := by
  unfold getLatestRates
  cases hc : cache base with
  | none => rfl
  | some e =>
    have he := h e hc
    show (if now - e.timestamp < 60 * 60 * 1000 then (e.rates, cache, false)
          else getLatestRatesFetch base now fr cache)
        = getLatestRatesFetch base now fr cache
    rw [if_neg (by omega)]

theorem getLatestRates_hit (base : CurrencyCode) (now : ℤ)
    (fr : Option RateTable) (cache : SessionCache) (entry : CacheEntry)
    (hc : cache base = some entry)
    (hfresh : now - entry.timestamp < 60 * 60 * 1000) :
    getLatestRates base now fr cache = (entry.rates, cache, false) := by
  unfold getLatestRates
  rw [hc]
  show (if now - entry.timestamp < 60 * 60 * 1000 then (entry.rates, cache, false)
        else getLatestRatesFetch base now fr cache)
      = (entry.rates, cache, false)
  rw [if_pos hfresh]

theorem getLatestRatesFetch_networkCalled (base : CurrencyCode) (now : ℤ)
    (fr : Option RateTable) (cache : SessionCache) :
    (getLatestRatesFetch base now fr cache).2.2 = true := by
  cases fr <;> rfl

theorem rateOf_filter_append (rates : RateTable) (c : String) (q : ℚ) :
    rateOf (List.filter (fun p => p.1 ≠ c) rates ++ [(c, q)]) c = some q := by
  induction rates with
  | nil => simp [rateOf, List.find?]
  | cons p rest ih =>
    obtain ⟨k, v⟩ := p
    by_cases hp : k = c
    · subst hp
      simpa [List.filter_cons] using ih
    · simpa [List.filter_cons, hp, rateOf, List.find?_cons] using ih

theorem rateOf_map_div (r : RateTable) (c : String) (d : ℚ) :
    rateOf (List.map (fun p => (p.1, p.2 / d)) r) c = (rateOf r c).map (· / d) := by
  induction r with
  | nil => rfl
  | cons p rest ih =>
    by_cases hp : p.1 = c
    · simp [rateOf, List.find?_cons, hp]
    · simpa [rateOf, List.find?_cons, hp] using ih

/-- Each currency of the app has a nonzero hardcoded fallback rate. -/
theorem fallback_base_rate :
    ∀ base : CurrencyCode,
      ∃ bq : ℚ, rateOf FALLBACK_RATES base.code = some bq ∧ bq ≠ 0 := by
  intro base
  cases base with
  | IDR => exact ⟨0.000062, rfl, by norm_num⟩
  | USD => exact ⟨1, rfl, by norm_num⟩
  | EUR => exact ⟨1.07, rfl, by norm_num⟩

/-- On the fallback path the returned table carries rate `1` for the base. -/
theorem rateOf_fallback_self (base : CurrencyCode) (now : ℤ)
    (cache : SessionCache) :
    rateOf (getLatestRatesFetch base now none cache).1 base.code = some 1 := by
  obtain ⟨bq, hbq, hb0⟩ := fallback_base_rate base
  simp only [getLatestRatesFetch, hbq, if_neg hb0]
  rw [rateOf_map_div FALLBACK_RATES base.code bq, hbq]
  simp [div_self hb0]

/-- The invariant of claim C5 on the session cache: every stored entry has
rate `1` for its own base currency. -/
def CacheWF (cache : SessionCache) : Prop :=
  ∀ b e, cache b = some e → rateOf e.rates b.code = some 1

/-- C4 (confirmed): once a call to `getLatestRates` has issued a successful
network fetch at time `t0`, a second call for the same base strictly inside
the following hour returns the cached table with no network call, and a second
call at or past the one-hour boundary issues a network call again. -/
theorem C4_theorem (base : CurrencyCode) (t0 t1 : ℤ) (fetched : RateTable)
    (fr2 : Option RateTable) (cache : SessionCache)
    (hfetch : (getLatestRates base t0 (some fetched) cache).2.2 = true) :
    (t1 - t0 < 60 * 60 * 1000 →
      getLatestRates base t1 fr2 (getLatestRates base t0 (some fetched) cache).2.1
        = ((getLatestRates base t0 (some fetched) cache).1,
           (getLatestRates base t0 (some fetched) cache).2.1, false)) ∧
    (t1 - t0 ≥ 60 * 60 * 1000 →
      (getLatestRates base t1 fr2
          (getLatestRates base t0 (some fetched) cache).2.1).2.2 = true) := by
  have hatt : fetchAttempted base t0 cache := by
    intro e hc
    by_contra hlt
    push_neg at hlt
    rw [getLatestRates_hit base t0 (some fetched) cache e hc hlt] at hfetch
    simp at hfetch
  have hcb : (getLatestRates base t0 (some fetched) cache).2.1 base
      = some ⟨(getLatestRates base t0 (some fetched) cache).1, t0⟩ := by
    rw [getLatestRates_attempted base t0 (some fetched) cache hatt]
    simp [getLatestRatesFetch]
  constructor
  · intro hlt
    exact getLatestRates_hit base t1 fr2 _ _ hcb hlt
  · intro hge
    have hatt2 : fetchAttempted base t1
        (getLatestRates base t0 (some fetched) cache).2.1 := by
      intro e hc
      rw [hcb] at hc
      injection hc with h
      have hts : e.timestamp = t0 := by rw [← h]
      omega
    rw [getLatestRates_attempted base t1 fr2 _ hatt2]
    exact getLatestRatesFetch_networkCalled base t1 fr2 _

/-- C4 witness: with an empty cache, a successful fetch for USD at time 0
followed by a second call at time 1000 serves the cache and issues no second
network call. -/
theorem C4_witness :
    (getLatestRates CurrencyCode.USD 0 (some [("EUR", 9/10)]) (fun _ => none)).2.2
      = true ∧
    getLatestRates CurrencyCode.USD 1000 none
        (getLatestRates CurrencyCode.USD 0 (some [("EUR", 9/10)]) (fun _ => none)).2.1
      = ((getLatestRates CurrencyCode.USD 0 (some [("EUR", 9/10)]) (fun _ => none)).1,
         (getLatestRates CurrencyCode.USD 0 (some [("EUR", 9/10)]) (fun _ => none)).2.1,
         false) :=
  ⟨rfl,
   (C4_theorem CurrencyCode.USD 0 1000 [("EUR", 9/10)] none (fun _ => none) rfl).1
     (by norm_num)⟩

/-- C5 (confirmed): provided every session-cache entry carries rate `1` for
its own base (an invariant all writes preserve), the table returned by
`getLatestRates` has entry exactly `1` for the requested base on all three
paths (fresh cache hit, successful fetch, static fallback), and the cache
afterwards still satisfies the invariant. -/
theorem C5_theorem (base : CurrencyCode) (now : ℤ) (fr : Option RateTable)
    (cache : SessionCache) (h : CacheWF cache) :
    rateOf (getLatestRates base now fr cache).1 base.code = some 1 ∧
    CacheWF (getLatestRates base now fr cache).2.1 := by
  have hfetch : rateOf (getLatestRatesFetch base now fr cache).1 base.code = some 1 ∧
      CacheWF (getLatestRatesFetch base now fr cache).2.1 := by
    cases fr with
    | some rates =>
      constructor
      · simpa [getLatestRatesFetch] using
          rateOf_filter_append rates base.code 1
      · intro b e hbe
        simp only [getLatestRatesFetch] at hbe
        by_cases hb : b = base
        · subst hb
          rw [if_pos rfl] at hbe
          cases hbe
          simpa using rateOf_filter_append rates b.code 1
        · rw [if_neg hb] at hbe
          exact h b e hbe
    | none =>
      exact ⟨rateOf_fallback_self base now cache, h⟩
  by_cases hatt : fetchAttempted base now cache
  · rw [getLatestRates_attempted base now fr cache hatt]
    exact hfetch
  · unfold fetchAttempted at hatt
    push_neg at hatt
    obtain ⟨e, hc, hlt⟩ := hatt
    rw [getLatestRates_hit base now fr cache e hc (by omega)]
    exact ⟨h base e hc, h⟩

/-- C5 witness: with the empty session cache and a failed fetch, the table
returned for base EUR carries entry `1` for EUR. -/
theorem C5_witness :
    rateOf (getLatestRates CurrencyCode.EUR 0 none (fun _ => none)).1
        CurrencyCode.EUR.code = some 1 :=
  (C5_theorem CurrencyCode.EUR 0 none (fun _ => none)
    (fun _ _ h => Option.noConfusion h)).1

/-- C6 (confirmed): when the call reaches the network and the fetch fails,
`getLatestRates` returns (without propagating any error) the static
`FALLBACK_RATES` table with every entry divided by the hardcoded rate of the
requested base, leaves the cache as it was, and the entry for the requested
base is exactly `1`. -/
theorem C6_theorem (base : CurrencyCode) (now : ℤ) (cache : SessionCache)
    (bq : ℚ) (hatt : fetchAttempted base now cache)
    (hbq : rateOf FALLBACK_RATES base.code = some bq) (hb0 : bq ≠ 0) :
    getLatestRates base now none cache
      = (List.map (fun p => (p.1, p.2 / bq)) FALLBACK_RATES, cache, true) ∧
    rateOf (getLatestRates base now none cache).1 base.code = some 1 := by
  rw [getLatestRates_attempted base now none cache hatt]
  have hbase : getLatestRatesFetch base now none cache
      = (List.map (fun p => (p.1, p.2 / bq)) FALLBACK_RATES, cache, true) := by
    simp only [getLatestRatesFetch, hbq, if_neg hb0]
  refine ⟨hbase, ?_⟩
  rw [hbase]
  rw [rateOf_map_div FALLBACK_RATES base.code bq, hbq]
  simp [div_self hb0]

/-- C6 witness: simulated network failure for base EUR with an empty cache:
the returned table is the fallback table rescaled by the EUR fallback rate
and its EUR entry is `1`. -/
theorem C6_witness :
    getLatestRates CurrencyCode.EUR 5 none (fun _ => none)
      = (List.map (fun p => (p.1, p.2 / (1.07 : ℚ))) FALLBACK_RATES,
         (fun _ => none), true) ∧
    rateOf (getLatestRates CurrencyCode.EUR 5 none (fun _ => none)).1
        CurrencyCode.EUR.code = some 1 :=
  C6_theorem CurrencyCode.EUR 5 (fun _ => none) 1.07
    (fun _ h => Option.noConfusion h) rfl (by norm_num)

/-- C10 (confirmed): after a call whose fetch fails, the session cache is
exactly what it was (no entry written), so a later call for the same base
issues the network call again; only a successful fetch writes an entry (the
written entry carries the returned table and the fetch timestamp). -/
theorem C10_theorem (base : CurrencyCode) (now t2 : ℤ) (fr2 : Option RateTable)
    (cache : SessionCache) (hatt : fetchAttempted base now cache)
    (h2 : now ≤ t2) :
    (getLatestRates base now none cache).2.1 = cache ∧
    (getLatestRates base t2 fr2 (getLatestRates base now none cache).2.1).2.2
      = true ∧
    (∀ r : RateTable,
      (getLatestRates base now (some r) cache).2.1 base
        = some ⟨(getLatestRates base now (some r) cache).1, now⟩) := by
  have hfail : (getLatestRates base now none cache).2.1 = cache := by
    rw [getLatestRates_attempted base now none cache hatt]
    rfl
  refine ⟨hfail, ?_, ?_⟩
  · rw [hfail]
    have hatt2 : fetchAttempted base t2 cache := by
      intro e he
      have := hatt e he
      omega
    rw [getLatestRates_attempted base t2 fr2 cache hatt2]
    exact getLatestRatesFetch_networkCalled base t2 fr2 cache
  · intro r
    rw [getLatestRates_attempted base now (some r) cache hatt]
    simp [getLatestRatesFetch]

/-- C10 witness: with the empty cache, a failed fetch for USD at time 0
leaves the cache empty, and a call at time 5 issues the network call again. -/
theorem C10_witness :
    (getLatestRates CurrencyCode.USD 0 none (fun _ => none)).2.1
      = (fun _ => none) ∧
    (getLatestRates CurrencyCode.USD 5 none
        (getLatestRates CurrencyCode.USD 0 none (fun _ => none)).2.1).2.2
      = true :=
  ⟨(C10_theorem CurrencyCode.USD 0 5 none (fun _ => none)
      (fun _ h => Option.noConfusion h) (by norm_num)).1,
   (C10_theorem CurrencyCode.USD 0 5 none (fun _ => none)
      (fun _ h => Option.noConfusion h) (by norm_num)).2.1⟩

/-- C7 counterexample: the claim quantifies over every transaction, but a
transaction with a falsy stored field is not reproduced unchanged.  Saving a
transaction whose description is the empty string into empty storage and
reloading yields the locale placeholder in place of the empty description, so
the reloaded first element differs from the saved transaction. -/
theorem C7_counterexample :
    getTransactions (fun _ => none) (fun _ => none) (fun _ => "u") "now"
        (saveTransaction (fun _ => none) (fun _ => none) (fun _ => "u") "now"
          ⟨Json.str "a", 5, Json.str "", Json.str "c", Json.str "d",
            TransactionType.EXPENSE, Json.str "IDR"⟩ none).2
      = [⟨Json.str "a", 5, Json.str "Tanpa Keterangan", Json.str "c",
          Json.str "d", TransactionType.EXPENSE, Json.str "IDR"⟩] ∧
    (⟨Json.str "a", 5, Json.str "Tanpa Keterangan", Json.str "c", Json.str "d",
        TransactionType.EXPENSE, Json.str "IDR"⟩ : Transaction)
      ≠ ⟨Json.str "a", 5, Json.str "", Json.str "c", Json.str "d",
          TransactionType.EXPENSE, Json.str "IDR"⟩ := by
  constructor
  · rfl
  · intro h
    have := congrArg Transaction.description h
    simp at this

/-- C7 (corrected): for every stored list and every transaction `tx` all of
whose stored fields are truthy, `saveTransaction tx` returns `tx` prepended to
the previously loaded list, and reloading the persisted cell (with any fresh
identifier generator and clock) returns exactly that list: `tx` first and
every previously-present transaction unchanged. -/
theorem C7_amended (strNum : String → Option ℚ) (refNum : Json → Option ℚ)
    (uuid uuid2 : ℕ → String) (nowISO now2 : String) (cell : Option StoredVal)
    (tx : Transaction) (hu : ∀ i, uuid i ≠ "") (hn : nowISO ≠ "")
    (htx : WellFormed tx) :
    (saveTransaction strNum refNum uuid nowISO tx cell).1
      = tx :: getTransactions strNum refNum uuid nowISO cell ∧
    getTransactions strNum refNum uuid2 now2
        (saveTransaction strNum refNum uuid nowISO tx cell).2
      = tx :: getTransactions strNum refNum uuid nowISO cell := by
  refine ⟨rfl, ?_⟩
  have hwf : ∀ t ∈ tx :: getTransactions strNum refNum uuid nowISO cell,
      WellFormed t := by
    intro t ht
    rcases List.mem_cons.mp ht with h | h
    · exact h ▸ htx
    · exact getTransactions_wellFormed strNum refNum uuid nowISO cell hu hn t h
  exact getTransactions_encodeList strNum refNum uuid2 now2 _ hwf

/-- C7 witness: saving one fully truthy transaction into empty storage and
reloading yields exactly that transaction. -/
theorem C7_witness :
    getTransactions (fun _ => none) (fun _ => none) (fun _ => "v") "m"
        (saveTransaction (fun _ => none) (fun _ => none) (fun _ => "u") "n"
          ⟨Json.str "a", 5, Json.str "desc", Json.str "cat", Json.str "2024",
            TransactionType.INCOME, Json.str "USD"⟩ none).2
      = [⟨Json.str "a", 5, Json.str "desc", Json.str "cat", Json.str "2024",
          TransactionType.INCOME, Json.str "USD"⟩] :=
  (C7_amended (fun _ => none) (fun _ => none) (fun _ => "u") (fun _ => "v")
    "n" "m" none
    ⟨Json.str "a", 5, Json.str "desc", Json.str "cat", Json.str "2024",
      TransactionType.INCOME, Json.str "USD"⟩
    (fun _ => (by decide : ("u" : String) ≠ "")) (by decide)
    (by constructor <;> simp [truthy])).2

/-- C8 (confirmed): `deleteTransaction id` removes exactly the loaded
transactions whose `id` field is strictly equal to the string `id`: the
returned list is the filtered previous list, it is a sublist (relative order
preserved), membership is previous membership plus a non-matching id, and
reloading the persisted cell (with any fresh identifier generator and clock)
returns the same filtered list with every surviving field value untouched. -/
theorem C8_theorem (strNum : String → Option ℚ) (refNum : Json → Option ℚ)
    (uuid uuid2 : ℕ → String) (nowISO now2 : String) (cell : Option StoredVal)
    (id : String) (hu : ∀ i, uuid i ≠ "") (hn : nowISO ≠ "") :
    (deleteTransaction strNum refNum uuid nowISO id cell).1
      = (getTransactions strNum refNum uuid nowISO cell).filter
          (fun t => !(t.id.strEq id)) ∧
    (∀ t : Transaction,
      t ∈ (deleteTransaction strNum refNum uuid nowISO id cell).1 ↔
        (t ∈ getTransactions strNum refNum uuid nowISO cell ∧
          t.id.strEq id = false)) ∧
    List.Sublist (deleteTransaction strNum refNum uuid nowISO id cell).1
      (getTransactions strNum refNum uuid nowISO cell) ∧
    getTransactions strNum refNum uuid2 now2
        (deleteTransaction strNum refNum uuid nowISO id cell).2
      = (getTransactions strNum refNum uuid nowISO cell).filter
          (fun t => !(t.id.strEq id)) := by
  refine ⟨rfl, ?_, ?_, ?_⟩
  · intro t
    simp [deleteTransaction, List.mem_filter]
  · exact List.filter_sublist _
  · have hwf : ∀ t ∈ (getTransactions strNum refNum uuid nowISO cell).filter
        (fun t => !(t.id.strEq id)), WellFormed t := by
      intro t ht
      exact getTransactions_wellFormed strNum refNum uuid nowISO cell hu hn t
        (List.mem_of_mem_filter ht)
    exact getTransactions_encodeList strNum refNum uuid2 now2 _ hwf

/-- C8 witness: deleting id `a` from a stored two-element list keeps exactly
the other transaction, also after reloading the persisted cell. -/
theorem C8_witness :
    getTransactions (fun _ => none) (fun _ => none) (fun _ => "v") "m"
        (deleteTransaction (fun _ => none) (fun _ => none) (fun _ => "u") "n" "a"
          (some (encodeList
            [⟨Json.str "a", 1, Json.str "d1", Json.str "c1", Json.str "t1",
               TransactionType.EXPENSE, Json.str "IDR"⟩,
             ⟨Json.str "b", 2, Json.str "d2", Json.str "c2", Json.str "t2",
               TransactionType.INCOME, Json.str "USD"⟩]))).2
      = (getTransactions (fun _ => none) (fun _ => none) (fun _ => "u") "n"
          (some (encodeList
            [⟨Json.str "a", 1, Json.str "d1", Json.str "c1", Json.str "t1",
               TransactionType.EXPENSE, Json.str "IDR"⟩,
             ⟨Json.str "b", 2, Json.str "d2", Json.str "c2", Json.str "t2",
               TransactionType.INCOME, Json.str "USD"⟩]))).filter
          (fun t => !(t.id.strEq "a")) :=
  (C8_theorem (fun _ => none) (fun _ => none) (fun _ => "u") (fun _ => "v")
    "n" "m"
    (some (encodeList
      [⟨Json.str "a", 1, Json.str "d1", Json.str "c1", Json.str "t1",
         TransactionType.EXPENSE, Json.str "IDR"⟩,
       ⟨Json.str "b", 2, Json.str "d2", Json.str "c2", Json.str "t2",
         TransactionType.INCOME, Json.str "USD"⟩]))
    "a" (fun _ => (by decide : ("u" : String) ≠ "")) (by decide)).2.2.2

/-- C9 (confirmed): storing any settings object and reading it back yields the
stored value for every settings field present in the object and the hardcoded
default for every absent field (shallow merge over `DEFAULT_SETTINGS`). -/
theorem C9_theorem (s : Json) :
    ((jsGet s "currency" = none →
        (getSettings (saveSettings s)).currency = DEFAULT_SETTINGS.currency) ∧
     (∀ v, jsGet s "currency" = some v →
        (getSettings (saveSettings s)).currency = v)) ∧
    ((jsGet s "language" = none →
        (getSettings (saveSettings s)).language = DEFAULT_SETTINGS.language) ∧
     (∀ v, jsGet s "language" = some v →
        (getSettings (saveSettings s)).language = v)) ∧
    ((jsGet s "theme" = none →
        (getSettings (saveSettings s)).theme = DEFAULT_SETTINGS.theme) ∧
     (∀ v, jsGet s "theme" = some v →
        (getSettings (saveSettings s)).theme = v)) ∧
    ((jsGet s "username" = none →
        (getSettings (saveSettings s)).username = DEFAULT_SETTINGS.username) ∧
     (∀ v, jsGet s "username" = some v →
        (getSettings (saveSettings s)).username = v)) ∧
    ((jsGet s "avatar" = none →
        (getSettings (saveSettings s)).avatar = DEFAULT_SETTINGS.avatar) ∧
     (∀ v, jsGet s "avatar" = some v →
        (getSettings (saveSettings s)).avatar = v)) := by
  refine ⟨⟨?_, ?_⟩, ⟨?_, ?_⟩, ⟨?_, ?_⟩, ⟨?_, ?_⟩, ⟨?_, ?_⟩⟩ <;>
    intros <;>
    simp_all [getSettings, saveSettings, mergeGet]

/-- C9 witness: a stored object holding only a currency field reads back with
that currency and the default theme. -/
theorem C9_witness :
    (getSettings (saveSettings (Json.obj [("currency", Json.str "USD")]))).currency
      = Json.str "USD" ∧
    (getSettings (saveSettings (Json.obj [("currency", Json.str "USD")]))).theme
      = DEFAULT_SETTINGS.theme :=
  ⟨(C9_theorem (Json.obj [("currency", Json.str "USD")])).1.2
     (Json.str "USD") rfl,
   (C9_theorem (Json.obj [("currency", Json.str "USD")])).2.2.1.1 rfl⟩

/-- C3 counterexample: the claim says every raw entry of a stored JSON list is
sanitized into a well-formed transaction, but a raw entry that is JSON `null`
makes the sanitizing map throw on property access, so the stored one-element
list `[null]` loads as the empty list instead of one defaulted transaction. -/
theorem C3_counterexample :
    getTransactions (fun _ => none) (fun _ => none) (fun _ => "fresh")
        "2024-01-01T00:00:00.000Z"
        (some (StoredVal.val (Json.arr [Json.null]))) = [] ∧
    [Json.null].length = 1 := by
  exact ⟨rfl, rfl⟩

/-- C3 (corrected): absent key, malformed JSON and non-list parses load as the
empty list without throwing; a stored list containing a `null` entry also
loads as the empty list (the per-entry property access throws and the catch
swallows it); otherwise every raw entry is sanitized in order, entry `i`
drawing the fresh identifier `uuid i`, with the defaulting rules: missing or
falsy id becomes the fresh identifier, missing or non-numeric amount becomes
`0`, missing or falsy description/category become the locale placeholder
strings, missing or falsy date becomes the current time, type is income
exactly when the raw value is strictly the income tag, and missing or falsy
currency becomes the primary currency IDR. -/
theorem C3_amended (strNum : String → Option ℚ) (refNum : Json → Option ℚ)
    (uuid : ℕ → String) (nowISO : String) :
    getTransactions strNum refNum uuid nowISO none = [] ∧
    getTransactions strNum refNum uuid nowISO (some StoredVal.malformed) = [] ∧
    (∀ j : Json, (∀ l, j ≠ Json.arr l) →
      getTransactions strNum refNum uuid nowISO (some (StoredVal.val j)) = []) ∧
    (∀ l : List Json, l.any Json.isNull = true →
      getTransactions strNum refNum uuid nowISO
        (some (StoredVal.val (Json.arr l))) = []) ∧
    (∀ l : List Json, l.any Json.isNull = false →
      getTransactions strNum refNum uuid nowISO
          (some (StoredVal.val (Json.arr l)))
        = sanitizeList strNum refNum uuid nowISO 0 l) ∧
    (∀ freshId t,
      ((jsGet t "id" = none ∨ (∃ v, jsGet t "id" = some v ∧ truthy v = false)) →
        (sanitizeEntry strNum refNum freshId nowISO t).id = Json.str freshId) ∧
      (∀ v, jsGet t "id" = some v → truthy v = true →
        (sanitizeEntry strNum refNum freshId nowISO t).id = v) ∧
      ((jsGet t "amount" = none ∨
          (∃ v, jsGet t "amount" = some v ∧ jsNumber strNum refNum v = none)) →
        (sanitizeEntry strNum refNum freshId nowISO t).amount = 0) ∧
      (∀ v q, jsGet t "amount" = some v → jsNumber strNum refNum v = some q →
        (sanitizeEntry strNum refNum freshId nowISO t).amount = q) ∧
      ((jsGet t "description" = none ∨
          (∃ v, jsGet t "description" = some v ∧ truthy v = false)) →
        (sanitizeEntry strNum refNum freshId nowISO t).description
          = Json.str "Tanpa Keterangan") ∧
      (∀ v, jsGet t "description" = some v → truthy v = true →
        (sanitizeEntry strNum refNum freshId nowISO t).description = v) ∧
      ((jsGet t "category" = none ∨
          (∃ v, jsGet t "category" = some v ∧ truthy v = false)) →
        (sanitizeEntry strNum refNum freshId nowISO t).category
          = Json.str "Lainnya") ∧
      (∀ v, jsGet t "category" = some v → truthy v = true →
        (sanitizeEntry strNum refNum freshId nowISO t).category = v) ∧
      ((jsGet t "date" = none ∨ (∃ v, jsGet t "date" = some v ∧ truthy v = false)) →
        (sanitizeEntry strNum refNum freshId nowISO t).date = Json.str nowISO) ∧
      (∀ v, jsGet t "date" = some v → truthy v = true →
        (sanitizeEntry strNum refNum freshId nowISO t).date = v) ∧
      (∀ v, jsGet t "type" = some v → v.strEq "income" = true →
        (sanitizeEntry strNum refNum freshId nowISO t).type
          = TransactionType.INCOME) ∧
      ((jsGet t "type" = none ∨
          (∃ v, jsGet t "type" = some v ∧ v.strEq "income" = false)) →
        (sanitizeEntry strNum refNum freshId nowISO t).type
          = TransactionType.EXPENSE) ∧
      ((jsGet t "currency" = none ∨
          (∃ v, jsGet t "currency" = some v ∧ truthy v = false)) →
        (sanitizeEntry strNum refNum freshId nowISO t).currency
          = Json.str "IDR") ∧
      (∀ v, jsGet t "currency" = some v → truthy v = true →
        (sanitizeEntry strNum refNum freshId nowISO t).currency = v)) := by
  refine ⟨rfl, rfl, ?_, ?_, ?_, ?_⟩
  · intro j hj
    cases j with
    | arr l => exact absurd rfl (hj l)
    | null => rfl
    | bool b => rfl
    | num q => rfl
    | str s => rfl
    | obj m => rfl
  · intro l h
    simp [getTransactions, h]
  · intro l h
    simp [getTransactions, h]
  · intro freshId t
    refine ⟨?_, ?_, ?_, ?_, ?_, ?_, ?_, ?_, ?_, ?_, ?_, ?_, ?_, ?_⟩
    · rintro (h | ⟨v, hv, htv⟩) <;>
        simp [sanitizeEntry, orDefault, *]
    · intro v hv htv
      simp [sanitizeEntry, orDefault, hv, htv]
    · rintro (h | ⟨v, hv, hnv⟩) <;>
        simp [sanitizeEntry, jsNumberOr0, *]
    · intro v q hv hq
      simp [sanitizeEntry, jsNumberOr0, hv, hq]
    · rintro (h | ⟨v, hv, htv⟩) <;>
        simp [sanitizeEntry, orDefault, *]
    · intro v hv htv
      simp [sanitizeEntry, orDefault, hv, htv]
    · rintro (h | ⟨v, hv, htv⟩) <;>
        simp [sanitizeEntry, orDefault, *]
    · intro v hv htv
      simp [sanitizeEntry, orDefault, hv, htv]
    · rintro (h | ⟨v, hv, htv⟩) <;>
        simp [sanitizeEntry, orDefault, *]
    · intro v hv htv
      simp [sanitizeEntry, orDefault, hv, htv]
    · intro v hv hs
      simp [sanitizeEntry, hv, hs]
    · rintro (h | ⟨v, hv, hs⟩) <;>
        simp [sanitizeEntry, *]
    · rintro (h | ⟨v, hv, htv⟩) <;>
        simp [sanitizeEntry, orDefault, *]
    · intro v hv htv
      simp [sanitizeEntry, orDefault, hv, htv]

/-- C3 witness: a stored list with one object entry and no null entry loads as
the sanitized list. -/
theorem C3_witness :
    getTransactions (fun _ => none) (fun _ => none) (fun _ => "f") "2024"
        (some (StoredVal.val (Json.arr [Json.obj []])))
      = sanitizeList (fun _ => none) (fun _ => none) (fun _ => "f") "2024" 0
          [Json.obj []] :=
  (C3_amended (fun _ => none) (fun _ => none) (fun _ => "f") "2024").2.2.2.2.1
    [Json.obj []] rfl

/-- C1 counterexample: the claim states that whenever both rates are present
the result is `(A / rate[X]) * rate[Y]`, but the code tests the rates for
truthiness, so a present-but-zero rate takes the warning fallback instead: at
rate table `\x7bEUR: 0, USD: 1\x7d` (both entries present) converting 100 EUR
to USD returns the original 100, while the claimed formula does not equal 100
(in JavaScript it is Infinity; in this rational model division by zero gives
0). -/
theorem C1_counterexample :
    convertAmount (some [("EUR", 0), ("USD", 1)]) false 100
        CurrencyCode.EUR CurrencyCode.USD = 100 ∧
    rateOf [("EUR", 0), ("USD", 1)] CurrencyCode.EUR.code = some 0 ∧
    rateOf [("EUR", 0), ("USD", 1)] CurrencyCode.USD.code = some 1 ∧
    (100 : ℚ) / 0 * 1 ≠ 100 := by
  refine ⟨rfl, rfl, rfl, by norm_num⟩

/-- C1 (corrected): conversion to the same currency is the identity whatever
the rate state; while rates are absent or loading, a cross-currency conversion
returns 0; when rates are present and not loading, the result is
`(A / rate[X]) * rate[Y]` whenever both rates are present and nonzero, and
the original amount `A` (with a logged warning, never a throw) whenever either
rate is missing or zero. -/
theorem C1_amended (er : Option RateTable) (loading : Bool) (A : ℚ)
    (X Y : CurrencyCode) :
    (X = Y → convertAmount er loading A X Y = A) ∧
    (X ≠ Y → (er = none ∨ loading = true) → convertAmount er loading A X Y = 0) ∧
    (∀ r fq tq, X ≠ Y → er = some r → loading = false →
      rateOf r X.code = some fq → rateOf r Y.code = some tq →
      fq ≠ 0 → tq ≠ 0 →
      convertAmount er loading A X Y = A / fq * tq) ∧
    (∀ r, X ≠ Y → er = some r → loading = false →
      (rateOf r X.code = none ∨ rateOf r X.code = some 0 ∨
        rateOf r Y.code = none ∨ rateOf r Y.code = some 0) →
      convertAmount er loading A X Y = A) := by
  refine ⟨?_, ?_, ?_, ?_⟩
  · intro h
    simp [convertAmount, h]
  · rintro hne (h | h)
    · subst h
      simp [convertAmount, hne]
    · subst h
      cases er <;> simp [convertAmount, hne]
  · intro r fq tq hne her hl hfq htq hf0 ht0
    subst her
    subst hl
    simp [convertAmount, hne, hfq, htq, hf0, ht0]
  · intro r hne her hl hcase
    subst her
    subst hl
    rcases hcase with h | h | h | h <;>
      rcases hY : rateOf r Y.code with _ | tq <;>
      rcases hX : rateOf r X.code with _ | fq <;>
      simp_all [convertAmount, hne]

/-- C1 witness: the worked example of the specification: with rate table
`\x7bUSD: 1, EUR: 0.92\x7d` (base USD), rates loaded, converting 100 EUR to
USD yields 100 / 0.92 * 1 = 2500/23. -/
theorem C1_witness :
    convertAmount (some [("USD", 1), ("EUR", 0.92)]) false 100
        CurrencyCode.EUR CurrencyCode.USD = 2500 / 23 :=
  ((C1_amended (some [("USD", 1), ("EUR", 0.92)]) false 100
      CurrencyCode.EUR CurrencyCode.USD).2.2.1
    [("USD", 1), ("EUR", 0.92)] 0.92 1 (by decide) rfl rfl rfl rfl
    (by norm_num) (by norm_num)).trans (by norm_num)

/-- C2 (code bug): right after the install handler populated the static cache
with the shell assets and before any online navigation stored a copy in the
dynamic cache, the install-time cached copy of the root shell document is
present in the static partition, yet an offline navigation request to the root
resolves to nothing (the navigation fallback consults only the dynamic
partition), so the browser surfaces a network error instead of the cached
shell. -/
theorem C2_theorem (assetContent : String → String) :
    cacheMatch (installCaches assetContent).staticCache "/index.html"
      = some (assetContent "/index.html") ∧
    cacheMatch (installCaches assetContent).staticCache "/"
      = some (assetContent "/") ∧
    navigateOffline (installCaches assetContent) "/" = none ∧
    navigateOffline (installCaches assetContent) "/index.html" = none := by
  exact ⟨rfl, rfl, rfl, rfl⟩
